import Mathlib

/-!
Verification development for the FloatChat_AI frontend.

The definitions below are shallow embeddings of the JavaScript source:
* `frontend/src/App.jsx` — the chat dashboard (`handleSendMessage`,
  `streamResponse`, `addMessage`, the `chatHistory` effect);
* `frontend/src/components/AdvancedQueries.jsx` — the structured query
  forms (`executeSpatialQuery`, `executeBGCQuery`);
* `frontend/src/components/GeospatialVisualizations.jsx` (`safeToFixed`).

JS strings are modelled as Lean `String`/`List Char`; JS numbers that the
claims depend on are modelled as `ℚ` (exact rationals; the claims under
study concern decimal display and range checks, not IEEE behaviour).
Components that the specification describes but that have no code in the
repository (the response cache with generation leases, and stream
cancellation) are modelled from the spec and marked as such in their
doc comments.
-/

namespace FloatChat

/-- A chat transcript message, from `addMessage` / `streamResponse` in
`App.jsx` (the `id` and `timestamp` fields are identity/presentation
only and are dropped). `type` is one of `"user"`, `"assistant"`,
`"system"`, `"error"`. -/
structure Message where
  content : String
  type : String
  source : Option String
  streaming : Bool
deriving DecidableEq, Repr

/-- An entry of the `uploadedFiles` state in `App.jsx`. Coordinates are
kept as the strings interpolated into the query text (the source
interpolates `f.coordinates.lat` verbatim). -/
structure UploadedFile where
  name : String
  type : String
  status : String
  coordinates : Option (String × String)
  parameters : Option (List String)
deriving DecidableEq, Repr

/-- JS `Array.prototype.slice(-n)`: the last `n` elements. -/
def sliceLast (n : Nat) (l : List α) : List α := l.drop (l.length - n)

/-- JS `String.prototype.trim`: strip whitespace from both ends
(modelled over the core whitespace characters, which `Char.isWhitespace`
matches). -/
def jsTrim (s : String) : String :=
  ⟨((s.data.dropWhile Char.isWhitespace).reverse.dropWhile Char.isWhitespace).reverse⟩

/-- The per-file context fragment built in `handleSendMessage`
(App.jsx:256-264). -/
def fileInfo (f : UploadedFile) : String :=
  f.name ++ " (" ++ f.type.toUpper ++ ")"
    ++ (match f.coordinates with
        | some (lat, lon) => " at " ++ lat ++ "°N, " ++ lon ++ "°E"
        | none => "")
    ++ (match f.parameters with
        | some ps => " with parameters: " ++ String.intercalate ", " ps
        | none => "")

/-- The query text actually sent to the backend, built in
`handleSendMessage` (App.jsx:250-272): the raw message, optionally
followed by a recently-uploaded-files context block and the last two
chat-history contents. -/
def buildEnhancedQuery (message : String) (uploadedFiles : List UploadedFile)
    (chatHistory : List Message) : String :=
  let recentFiles := sliceLast 3 (uploadedFiles.filter (fun f => f.status == "success"))
  let fileCtx : String :=
    if uploadedFiles.length > 0 && recentFiles.length > 0 then
      "\n\nContext: Recently uploaded files: "
        ++ String.intercalate "; " (recentFiles.map fileInfo)
    else ""
  let histCtx : String :=
    if chatHistory.length > 0 then
      "\n\nPrevious conversation: "
        ++ String.intercalate "; " ((sliceLast 2 chatHistory).map Message.content)
    else ""
  message ++ fileCtx ++ histCtx

/-- The `queryType` argument of `handleSendMessage` (`'argo'` or `'web'`). -/
inductive QueryType
  | argo
  | web
deriving DecidableEq, Repr

def queryDataEndpoint : String := "/api/query-data"
def webSearchEndpoint : String := "/api/web-search"
def nearestFloatsEndpoint : String := "/api/floats/nearest"

/-- Endpoint selection in `handleSendMessage` (App.jsx:274). -/
def endpointFor : QueryType → String
  | .web => webSearchEndpoint
  | .argo => queryDataEndpoint

/-- The parsed JSON body returned by `/api/query-data` or
`/api/web-search` as consumed by `handleSendMessage` (`result.success`,
`result.response`; `none` models an absent/undefined field). -/
structure ApiResult where
  success : Bool
  response : Option String
deriving DecidableEq, Repr

/-- A fetch either throws (network error, the `catch` branch) or yields
a parsed result. -/
def FetchOutcome := Except Unit ApiResult

/-- JS truthiness of `result.response` (App.jsx:288): `undefined` and
the empty string are falsy. -/
def jsTruthy : Option String → Bool
  | none => false
  | some s => !(s == "")

/-- JS `a || b` over an optional string (App.jsx:294): falsy (absent or
empty) falls through to the default. -/
def jsOr (o : Option String) (dflt : String) : String :=
  match o with
  | none => dflt
  | some s => if s == "" then dflt else s

/-- The marker substring that App.jsx:288 sniffs for in a failed
response to decide escalation. -/
def notAvailable : String := "not available"

/-- `result.response.includes('not available')` (App.jsx:288):
substring containment, as contiguous-infix of the character list. -/
def containsNotAvailable : Option String → Bool
  | none => false
  | some s => decide (notAvailable.data <:+: s.data)

/-- The message streamed before the web-search escalation
(App.jsx:289). -/
def searchingExternal : String :=
  "**Searching External Sources**\n\nLet me search the web for additional information about your query..."

/-- The fallback error message of App.jsx:294. -/
def processingError : String :=
  "**Processing Error**\n\nI encountered an issue processing your request. Please try rephrasing your query or check the system status."

/-- The `catch` branch message of App.jsx:298. -/
def connectionError : String :=
  "**Connection Error**\n\nI\x27m having trouble connecting to the server. Please check your connection and try again."

/-- Observable outcome of one `handleSendMessage` call: the HTTP
requests issued, in order (endpoint, body query), and the texts streamed
into the transcript, in order. -/
structure SendOutcome where
  requests : List (String × String)
  streamed : List String
deriving DecidableEq, Repr

/-- The request/streaming behaviour of `handleSendMessage`
(App.jsx:249-301) after the input guard, parameterised by the backend
`env : endpoint → body → FetchOutcome`.

The source recurses via `handleSendMessage(message, 'web', true)`
(App.jsx:291); that recursive call has `queryType === 'web'`, so the
escalation condition at App.jsx:288 is false inside it and it can never
recurse again. The recursion is modelled with a fuel counter; the
source's behaviour is `sendCore … 2 qt` (`sendFuel` below). The
recursive call reads the same `uploadedFiles`/`chatHistory` state it
closed over. -/
def sendCore (env : String → String → Except Unit ApiResult)
    (files : List UploadedFile) (hist : List Message) (message : String) :
    Nat → QueryType → SendOutcome
  | 0, _ => ⟨[], []⟩
  | fuel + 1, qt =>
    let enhanced := buildEnhancedQuery message files hist
    let ep := endpointFor qt
    match env ep enhanced with
    | .error _ => ⟨[(ep, enhanced)], [connectionError]⟩
    | .ok r =>
      if r.success then
        -- streams `result.response` as is (an empty response streams "");
        -- an absent (undefined) response makes streamResponse throw on
        -- `.split`, which lands in the same catch branch as a network error
        match r.response with
        | some s => ⟨[(ep, enhanced)], [s]⟩
        | none => ⟨[(ep, enhanced)], [connectionError]⟩
      else if qt == .argo && jsTruthy r.response && containsNotAvailable r.response then
        let rest := sendCore env files hist message fuel .web
        ⟨(ep, enhanced) :: rest.requests, searchingExternal :: rest.streamed⟩
      else
        ⟨[(ep, enhanced)], [jsOr r.response processingError]⟩

/-- The fuel needed by `sendCore` for the source's recursion depth:
one primary attempt plus at most one escalation. -/
def sendFuel : Nat := 2

/-- The component state of `App.jsx` that `handleSendMessage` reads and
writes. -/
structure AppState where
  messages : List Message
  inputMessage : String
  isTyping : Bool
  uploadedFiles : List UploadedFile
  chatHistory : List Message
deriving Repr

/-- `addMessage` (App.jsx:186-196): append one message to the
transcript. -/
def addMessage (msgs : List Message) (content : String) (mtype : String) :
    List Message :=
  msgs ++ [⟨content, mtype, none, false⟩]

/-- `handleSendMessage` (App.jsx:239-302). Returns the new component
state and the observable outcome. The guard at App.jsx:240 short-circuits
on blank input or while a response is streaming. Streamed texts are
appended as `assistant` messages (every `streamResponse` call in this
function passes `messageType='assistant'`); `streamResponse` leaves
`isTyping` false when it finishes. -/
def handleSendMessage (env : String → String → Except Unit ApiResult)
    (st : AppState) (message : String) (qt : QueryType) (isAutoQuery : Bool) :
    AppState × SendOutcome :=
  if jsTrim message = "" ∨ st.isTyping = true then (st, ⟨[], []⟩)
  else
    let st1 := if isAutoQuery then st else
      { st with messages := addMessage st.messages message "user", inputMessage := "" }
    let out := sendCore env st.uploadedFiles st.chatHistory message sendFuel qt
    ({ st1 with
        messages := st1.messages ++ out.streamed.map (fun t => ⟨t, "assistant", none, false⟩),
        isTyping := false },
      out)

/-- Number of requests an outcome issued against the secondary
(web-search) strategy. -/
def webRequestCount (out : SendOutcome) : Nat :=
  out.requests.countP (fun r => r.1 == webSearchEndpoint)

/-- The condition under which App.jsx:288 escalates: the primary result
parsed, reported failure, and its response text is nonempty and contains
the marker substring. -/
def primaryInsufficient (env : String → String → Except Unit ApiResult)
    (files : List UploadedFile) (hist : List Message) (message : String) : Bool :=
  match env queryDataEndpoint (buildEnhancedQuery message files hist) with
  | .error _ => false
  | .ok r => !r.success && jsTruthy r.response && containsNotAvailable r.response

/-! ### Streaming delivery (`streamResponse`, App.jsx:198-237) -/

/-- JS `text.split(' ')` (App.jsx:214) over the character list: splits at
every space, keeping empty segments (so that rejoining with single spaces
is the identity, exactly as in JS). -/
def splitSp : List Char → List (List Char)
  | [] => [[]]
  | c :: cs =>
    if c = ' ' then [] :: splitSp cs
    else
      match splitSp cs with
      | [] => [[c]]
      | w :: ws => (c :: w) :: ws

/-- Join word list with single spaces (the accumulated shape of
`currentText`). -/
def joinSp : List (List Char) → List Char
  | [] => []
  | [w] => w
  | w :: ws => w ++ ' ' :: joinSp ws

/-- The tail part of a space-join: every word prefixed by one space. -/
def spJoinTail (ws : List (List Char)) : List Char :=
  (ws.map (fun w => ' ' :: w)).flatten

/-- The successive values taken by `currentText` in the streaming loop
(App.jsx:217-227): `currentText += (i > 0 ? ' ' : '') + words[i]`, one
entry per loop iteration, in order. `first` tracks `i = 0`. -/
def streamStepsAux (acc : List Char) (first : Bool) : List (List Char) → List (List Char)
  | [] => []
  | w :: ws =>
    let acc1 := acc ++ (if first then [] else [' ']) ++ w
    acc1 :: streamStepsAux acc1 false ws

/-- The trace of `(content, streaming)` message states produced by one
`streamResponse text` call (App.jsx:198-237): one state per loop
iteration with `streaming = true`, then the final update that only clears
the streaming flag (App.jsx:229-233). -/
def streamResponse (text : List Char) : List (List Char × Bool) :=
  let contents := streamStepsAux [] true (splitSp text)
  contents.map (fun c => (c, true)) ++ [(contents.getLastD [], false)]

/-! ### Response cache with generation leases (spec §4.3; no code in the
repository implements this — modelled from the spec) -/

/-- Modelled from the spec: `generation_state ∈ {pending, ready, failed}`
of a `CacheEntry` (§3). The repository contains no response-cache code;
this and the definitions below follow §4.3 of the spec. -/
inductive GenState
  | pending
  | ready (answer : String)
  | failed (error : String)
deriving DecidableEq, Repr

/-- Modelled from the spec: the result of `get_or_begin(fingerprint)`
(§4.3): a cached answer, a generation lease, or a wait handle. -/
inductive BeginResult
  | ready (answer : String)
  | begin
  | wait
deriving DecidableEq, Repr

/-- Modelled from the spec: the atomic claim-or-wait registration of
§4.3/§5 on one fingerprint's entry. An absent entry yields a `Begin`
lease and installs `pending`; a pending entry yields `Wait`; a ready
entry is served. A failed entry was removed on failure (§4.3: "the entry
is removed on failure so the next caller retries cleanly"), so the failed
case re-issues a lease. -/
def get_or_begin : Option GenState → BeginResult × Option GenState
  | none => (.begin, some .pending)
  | some .pending => (.wait, some .pending)
  | some (.ready a) => (.ready a, some (.ready a))
  | some (.failed _) => (.begin, some .pending)

/-- Modelled from the spec: `complete(lease, answer)` (§4.3) — the
leaseholder publishes the answer; the entry becomes `ready`. -/
def completeLease (answer : String) (_ : Option GenState) : Option GenState :=
  some (.ready answer)

/-- Modelled from the spec: `fail(lease, error)` (§4.3) — the leaseholder
reports failure; "a failed generation does not poison the cache
permanently — the entry is removed on failure so the next caller retries
cleanly". -/
def failLease (_error : String) (_ : Option GenState) : Option GenState :=
  none

/-- Modelled from the spec: the transient entry state at the moment the
leaseholder settles its lease — `ready answer` on `complete(lease,
answer)`, `failed error` on `fail(lease, error)`; wait handles resolve
against this state (§4.3: a `Wait` handle "resolves once the leaseholder
completes or fails"). -/
def settledState : Except String String → GenState
  | .ok a => .ready a
  | .error e => .failed e

/-- Modelled from the spec: the entry state persisted after the
leaseholder settles — a completed answer stays cached (`ready`), a
failed entry is removed so the next caller retries cleanly (§4.3). -/
def settleEntry : Except String String → Option GenState → Option GenState
  | .ok a, st => completeLease a st
  | .error e, st => failLease e st

/-- `n` concurrent callers with the same fingerprint: their atomic
claim-or-wait registrations execute in some serial order (§5). -/
def runCallers : Nat → Option GenState → List BeginResult × Option GenState
  | 0, st => ([], st)
  | n + 1, st =>
    let p1 := get_or_begin st
    let p2 := runCallers n p1.2
    (p1.1 :: p2.1, p2.2)

/-- What a caller ultimately receives once the leaseholder has settled
with `outcome` and the entry passed through the settled state `settled`:
a cache hit is served directly, the leaseholder has its own outcome
(answer or failure), and a wait handle resolves from the settled entry —
an answer if it completed, the leaseholder's failure if it failed, and
not at all while still pending (§4.3). -/
def receivedOutcome (outcome : Except String String) (settled : GenState) :
    BeginResult → Option (Except String String)
  | .ready a => some (.ok a)
  | .begin => some outcome
  | .wait =>
    match settled with
    | .ready a => some (.ok a)
    | .failed e => some (.error e)
    | .pending => none

/-! ### Stream cancellation (spec §4.5/§5; no code in the repository
implements cancellation — the `streamResponse` loop above runs to
completion unconditionally — modelled from the spec) -/

/-- Status of a `StreamingAnswer` (§3; the `error` case is not needed for
the cancellation claim). -/
inductive StreamStatus
  | inProgress
  | complete
  | cancelled
deriving DecidableEq, Repr

/-- Modelled from the spec: the producer-side state of one streamed
answer — segments not yet emitted, segments delivered in order, the
status, and the write-through cache entry made at completion (§2 control
flow: "Response Cache write-through"). -/
structure StreamState where
  pending : List String
  emitted : List String
  status : StreamStatus
  cacheWrite : Option String
deriving DecidableEq, Repr

/-- Modelled from the spec: one segment-production step (§5: cooperative
cancellation, honoured within one step). A cancellation request stops
production before the next segment; exhausting the segments completes the
stream and performs the cache write-through; a finished stream ignores
further steps. -/
def streamStep (cancelRequested : Bool) (s : StreamState) : StreamState :=
  if s.status = .inProgress then
    if cancelRequested then { s with status := .cancelled }
    else
      match s.pending with
      | [] => { s with status := .complete, cacheWrite := some (String.join s.emitted) }
      | seg :: rest => { s with pending := rest, emitted := s.emitted ++ [seg] }
  else s

/-- Run the producer over a schedule of per-step cancellation signals. -/
def runStream (sched : List Bool) (s : StreamState) : StreamState :=
  sched.foldl (fun st c => streamStep c st) s

/-- A fresh stream for the given segment sequence. -/
def initStream (segments : List String) : StreamState :=
  ⟨segments, [], .inProgress, none⟩

/-! ### Numeric display (`executeBGCQuery`, AdvancedQueries.jsx:135-193;
`safeToFixed`, GeospatialVisualizations.jsx:112-117) -/

/-- ECMAScript `Number.prototype.toFixed(2)` as exact rational rounding:
the displayed string denotes n/100 where n is the integer with n/100
closest to the value, ties resolved to the larger n (ES2023 §21.1.3.3,
which is ⌊100·q + 1/2⌋). -/
def jsToFixed2 (q : ℚ) : ℚ := (⌊q * 100 + 1/2⌋ : ℚ) / 100

/-- `safeToFixed` (GeospatialVisualizations.jsx:112-117): null, undefined
and NaN (modelled as `none`) display as the default "0.00"; any other
value displays as its toFixed(2) rounding. The result is the rational the
displayed string denotes. -/
def safeToFixed : Option ℚ → ℚ
  | none => 0
  | some v => jsToFixed2 v

/-- One per-parameter record of `result.data.analysis` as consumed by
`executeBGCQuery` (AdvancedQueries.jsx:157-162). -/
structure BgcAnalysis where
  overall_min : ℚ
  overall_max : ℚ
  mean_min : ℚ
  mean_max : ℚ
  profiles_count : ℕ
  unit : String

/-- The numeric values displayed in the BGC chat range line
(AdvancedQueries.jsx:159: `analysis.overall_min.toFixed(2)` and
`analysis.overall_max.toFixed(2)`). -/
def bgcDisplayedRange (a : BgcAnalysis) : ℚ × ℚ :=
  (jsToFixed2 a.overall_min, jsToFixed2 a.overall_max)

/-! ### Structured spatial queries (`executeSpatialQuery`,
AdvancedQueries.jsx:79-133) -/

/-- The `spatialQuery` component state (AdvancedQueries.jsx:19-24); the
`region` field is never read by `executeSpatialQuery` and is dropped. -/
structure SpatialQueryState where
  latitude : ℚ
  longitude : ℚ
  radius : ℤ
deriving DecidableEq, Repr

/-- `executeSpatialQuery` (AdvancedQueries.jsx:79-133): unconditionally
issues `GET /api/floats/nearest?lat=…&lon=…&radius=…` with the current
state values. There is no validation branch in the function, so the
`none` outcome (reject without issuing a request) never occurs; the
`min`/`max` attributes on the coordinate inputs (renderSpatialQuery,
AdvancedQueries.jsx:384-430) are advisory presentation attributes that do
not constrain the state value written by `onChange`. -/
def executeSpatialQuery (q : SpatialQueryState) : Option (String × ℚ × ℚ × ℤ) :=
  some (nearestFloatsEndpoint, q.latitude, q.longitude, q.radius)

/-! ### Session-scoped state growth (App.jsx:54-59, 186-196) -/

/-- The `chatHistory` effect (App.jsx:54-59): whenever `messages` is
nonempty, `chatHistory` becomes the last 10 user-typed messages
(`filter(type === 'user').slice(-10)`); an empty `messages` list leaves
the previous history in place. -/
def updateChatHistory (messages oldHist : List Message) : List Message :=
  if messages.length > 0 then
    sliceLast 10 (messages.filter (fun m => m.type == "user"))
  else oldHist

/-- The transcript after `n` successive `addMessage` appends to an empty
list. -/
def messagesAfter : Nat → List Message
  | 0 => []
  | n + 1 => addMessage (messagesAfter n) "query" "user"

/-! ### Concrete states and backends used by witnesses and
counterexamples -/

/-- An empty initial component state (the initial `useState` values of
App.jsx). -/
def initialState : AppState := ⟨[], "", false, [], []⟩

/-- A backend whose primary strategy fails with a "not available" text
and whose web search succeeds. -/
def envNotAvailable : String → String → Except Unit ApiResult := fun ep _ =>
  if ep == queryDataEndpoint then .ok ⟨false, some "requested data not available"⟩
  else .ok ⟨true, some "web answer"⟩

/-- A backend whose primary strategy fails with a different error text
(same typed status as `envNotAvailable`, different prose). -/
def envOtherFailure : String → String → Except Unit ApiResult := fun ep _ =>
  if ep == queryDataEndpoint then .ok ⟨false, some "internal error"⟩
  else .ok ⟨true, some "web answer"⟩

/-- A one-element chat history. -/
def histSample : List Message := [⟨"earlier question", "user", none, false⟩]

/-- A sample BGC analysis record whose mean minimum already has two
decimal places. -/
def bgcSample : BgcAnalysis := ⟨7/2, 0, 123/100, 0, 1, "psu"⟩

/-- A spatial query state with out-of-range coordinates. -/
def spatialSample : SpatialQueryState := ⟨200, 500, 100⟩

/-- Segments of a sample streamed answer. -/
def sampleSegments : List String := ["The", "float", "is", "active"]

/-! ## Helper lemmas -/

lemma sendCore_web_requests (env : String → String → Except Unit ApiResult)
    (files : List UploadedFile) (hist : List Message) (m : String) (fuel : Nat) :
    (sendCore env files hist m (fuel + 1) .web).requests
      = [(webSearchEndpoint, buildEnhancedQuery m files hist)] := by
  simp only [sendCore, endpointFor]
  cases env webSearchEndpoint (buildEnhancedQuery m files hist) with
  | error e => rfl
  | ok r =>
    obtain ⟨su, resp⟩ := r
    cases su <;> cases resp <;> rfl

lemma sendCore_argo_requests (env : String → String → Except Unit ApiResult)
    (files : List UploadedFile) (hist : List Message) (m : String) :
    (sendCore env files hist m 2 .argo).requests
      = (queryDataEndpoint, buildEnhancedQuery m files hist)
        :: (if primaryInsufficient env files hist m
            then [(webSearchEndpoint, buildEnhancedQuery m files hist)] else []) := by
  simp only [sendCore, endpointFor]
  cases henv : env queryDataEndpoint (buildEnhancedQuery m files hist) with
  | error e => simp [primaryInsufficient, henv]
  | ok r =>
    obtain ⟨su, resp⟩ := r
    cases su with
    | true => cases resp <;> simp [primaryInsufficient, henv]
    | false =>
      by_cases ht : jsTruthy resp = true ∧ containsNotAvailable resp = true
      · obtain ⟨h3, h4⟩ := ht
        cases henv2 : env webSearchEndpoint (buildEnhancedQuery m files hist) with
        | error e => simp [primaryInsufficient, henv, h3, h4]
        | ok r2 =>
          obtain ⟨su2, resp2⟩ := r2
          cases su2 <;> cases resp2 <;> simp [primaryInsufficient, henv, h3, h4]
      · have h3 : (jsTruthy resp && containsNotAvailable resp) = false := by
          rw [Bool.and_eq_false_iff]
          rcases Decidable.not_and_iff_or_not.mp ht with h | h
          · exact Or.inl (Bool.not_eq_true _ ▸ h)
          · exact Or.inr (Bool.not_eq_true _ ▸ h)
        simp [primaryInsufficient, henv, h3, Bool.and_eq_true]

lemma webCount_characterization (env : String → String → Except Unit ApiResult)
    (st : AppState) (m : String) (auto : Bool)
    (h1 : jsTrim m ≠ "") (h2 : st.isTyping = false) :
    webRequestCount (handleSendMessage env st m .argo auto).2
      = if primaryInsufficient env st.uploadedFiles st.chatHistory m then 1 else 0 := by
  unfold handleSendMessage
  rw [if_neg (by simp [h1, h2])]
  show webRequestCount (sendCore env st.uploadedFiles st.chatHistory m sendFuel .argo) = _
  unfold webRequestCount
  rw [show sendFuel = 2 from rfl, sendCore_argo_requests]
  have hqd : (queryDataEndpoint == webSearchEndpoint) = false := by decide
  have hws : (webSearchEndpoint == webSearchEndpoint) = true := by decide
  by_cases hp : primaryInsufficient env st.uploadedFiles st.chatHistory m = true
  · simp [hp, List.countP_cons, hqd, hws]
  · simp [hp, List.countP_cons, hqd]

/-! ## Claim theorems -/

/-- C10: a blank (empty after trimming) or whitespace-only message, or
any message sent while a response is still streaming (`isTyping`), is a
complete no-op: the state is unchanged, no request is issued and nothing
is streamed (the guard at App.jsx:240). -/
theorem sendMessage_guard_noop (env : String → String → Except Unit ApiResult)
    (st : AppState) (m : String) (qt : QueryType) (auto : Bool)
    (h : jsTrim m = "" ∨ st.isTyping = true) :
    handleSendMessage env st m qt auto = (st, ⟨[], []⟩) := by
  unfold handleSendMessage
  rw [if_pos h]

/-- Witness for `sendMessage_guard_noop`: a whitespace-only message is
dropped without any request or state change. -/
theorem sendMessage_guard_noop_witness :
    (jsTrim "   " = "" ∨ initialState.isTyping = true)
      ∧ handleSendMessage envNotAvailable initialState "   " .argo false
          = (initialState, ⟨[], []⟩) :=
  ⟨Or.inl (by decide),
    sendMessage_guard_noop envNotAvailable initialState "   " .argo false (Or.inl (by decide))⟩

/-- C1: for a primary (`'argo'`) query that passes the input guard, the
number of secondary (web-search) requests is exactly one when the primary
result is marked insufficient and zero otherwise — in particular the
escalation is never chained: at most one fallback request per original
query (App.jsx:285-296). -/
theorem fallback_escalates_exactly_once (env : String → String → Except Unit ApiResult)
    (st : AppState) (m : String) (auto : Bool)
    (h1 : jsTrim m ≠ "") (h2 : st.isTyping = false) :
    webRequestCount (handleSendMessage env st m .argo auto).2
        = (if primaryInsufficient env st.uploadedFiles st.chatHistory m then 1 else 0)
      ∧ webRequestCount (handleSendMessage env st m .argo auto).2 ≤ 1 := by
  have hc := webCount_characterization env st m auto h1 h2
  refine ⟨hc, ?_⟩
  rw [hc]
  split <;> omega

/-- Witness for `fallback_escalates_exactly_once`: with a backend whose
primary strategy answers "requested data not available", exactly one
escalation request is issued. -/
theorem fallback_escalates_exactly_once_witness :
    jsTrim "hello" ≠ "" ∧ initialState.isTyping = false
      ∧ primaryInsufficient envNotAvailable initialState.uploadedFiles
          initialState.chatHistory "hello" = true
      ∧ (webRequestCount (handleSendMessage envNotAvailable initialState "hello" .argo false).2
            = (if primaryInsufficient envNotAvailable initialState.uploadedFiles
                initialState.chatHistory "hello" then 1 else 0)
          ∧ webRequestCount
              (handleSendMessage envNotAvailable initialState "hello" .argo false).2 ≤ 1) :=
  ⟨by decide, rfl, by decide,
    fallback_escalates_exactly_once envNotAvailable initialState "hello" false (by decide) rfl⟩

/-- C2 counterexample: the escalation decision is not a function of the
typed status fields — two failed results with identical `success = false`
but different response texts produce different escalation behaviour,
because App.jsx:288 decides by searching the response text for the
substring "not available". -/
theorem insufficient_signal_counterexample :
    envNotAvailable queryDataEndpoint "hello"
        = .ok ⟨false, some "requested data not available"⟩
      ∧ envOtherFailure queryDataEndpoint "hello" = .ok ⟨false, some "internal error"⟩
      ∧ webRequestCount (handleSendMessage envNotAvailable initialState "hello" .argo false).2 = 1
      ∧ webRequestCount (handleSendMessage envOtherFailure initialState "hello" .argo false).2 = 0 :=
  ⟨rfl, rfl, by decide, by decide⟩

/-- C2 amended: the insufficient-context condition that triggers fallback
is decided by substring matching on the response text, not by a typed
status value — escalation happens iff the primary result parsed with
`success = false` and a nonempty response text containing
"not available". -/
theorem insufficient_signal_is_text_match (env : String → String → Except Unit ApiResult)
    (st : AppState) (m : String) (auto : Bool)
    (h1 : jsTrim m ≠ "") (h2 : st.isTyping = false) :
    webRequestCount (handleSendMessage env st m .argo auto).2 = 1
      ↔ primaryInsufficient env st.uploadedFiles st.chatHistory m = true := by
  rw [webCount_characterization env st m auto h1 h2]
  by_cases hp : primaryInsufficient env st.uploadedFiles st.chatHistory m = true <;> simp [hp]

/-- Witness for `insufficient_signal_is_text_match`. -/
theorem insufficient_signal_is_text_match_witness :
    jsTrim "hello" ≠ "" ∧ initialState.isTyping = false
      ∧ (webRequestCount (handleSendMessage envNotAvailable initialState "hello" .argo false).2 = 1
          ↔ primaryInsufficient envNotAvailable initialState.uploadedFiles
              initialState.chatHistory "hello" = true) :=
  ⟨by decide, rfl,
    insufficient_signal_is_text_match envNotAvailable initialState "hello" false (by decide) rfl⟩

/-- C7 counterexample: the constructed query is not independent of
mutable state — the same raw text produces different constructed queries
under different `chatHistory` values (App.jsx:269-272). -/
theorem query_state_dependence_counterexample :
    buildEnhancedQuery "hello" [] [] = "hello"
      ∧ buildEnhancedQuery "hello" [] histSample
          = "hello\n\nPrevious conversation: earlier question"
      ∧ buildEnhancedQuery "hello" [] []
          ≠ buildEnhancedQuery "hello" [] histSample :=
  ⟨by decide, by decide, by decide⟩

/-- C7 amended: query construction is a pure function of the raw text
together with the uploaded-files and chat-history state (deterministic
for fixed state); the raw text is always a prefix of the constructed
query, and with empty session state the constructed query is the raw
text itself. It is not independent of that mutable state. -/
theorem query_construction_pure (m : String) (files : List UploadedFile)
    (hist : List Message) :
    m.data <+: (buildEnhancedQuery m files hist).data
      ∧ buildEnhancedQuery m [] [] = m := by
  constructor
  · simp only [buildEnhancedQuery]
    rw [String.data_append, String.data_append, List.append_assoc]
    exact List.prefix_append _ _
  · simp [buildEnhancedQuery, sliceLast, String.append_empty]

/-- C9 counterexample: the `messages` transcript is session-scoped state
that grows without bound — `addMessage` (App.jsx:186-196) appends
unconditionally and nothing ever evicts. -/
theorem transcript_unbounded_counterexample :
    ¬ ∃ B : ℕ, ∀ n : ℕ, (messagesAfter n).length ≤ B := by
  rintro ⟨B, hB⟩
  have hlen : ∀ n, (messagesAfter n).length = n := by
    intro n
    induction n with
    | zero => rfl
    | succ k ih => simp [messagesAfter, addMessage, ih]
  have hx := hB (B + 1)
  rw [hlen] at hx
  omega

/-- C9 amended: the recent-turns history (`chatHistory`) is bounded to
the last 10 user messages — a suffix of the user-filtered transcript, so
the oldest entries are evicted first — but the `messages` transcript
itself grows by one on every append, without bound. -/
theorem chat_history_bounded_not_transcript (messages oldHist : List Message)
    (c t : String) (h : oldHist.length ≤ 10) :
    (updateChatHistory messages oldHist).length ≤ 10
      ∧ (updateChatHistory messages oldHist
            <:+ messages.filter (fun m => m.type == "user")
          ∨ updateChatHistory messages oldHist = oldHist)
      ∧ (addMessage messages c t).length = messages.length + 1 := by
  refine ⟨?_, ?_, by simp [addMessage]⟩
  · unfold updateChatHistory
    split
    · simp only [sliceLast, List.length_drop]
      omega
    · exact h
  · unfold updateChatHistory
    split
    · exact Or.inl (List.drop_suffix _ _)
    · exact Or.inr rfl

/-- Witness for `chat_history_bounded_not_transcript`. -/
theorem chat_history_bounded_not_transcript_witness :
    ([] : List Message).length ≤ 10
      ∧ ((updateChatHistory histSample []).length ≤ 10
          ∧ (updateChatHistory histSample []
                <:+ histSample.filter (fun m => m.type == "user")
              ∨ updateChatHistory histSample [] = [])
          ∧ (addMessage histSample "follow-up" "user").length = histSample.length + 1) :=
  ⟨by decide, chat_history_bounded_not_transcript histSample [] "follow-up" "user" (by decide)⟩

lemma splitSp_ne_nil (l : List Char) : splitSp l ≠ [] := by
  cases l with
  | nil => simp [splitSp]
  | cons c cs =>
    simp only [splitSp]
    split
    · simp
    · split <;> simp

lemma joinSp_splitSp (l : List Char) : joinSp (splitSp l) = l := by
  induction l with
  | nil => rfl
  | cons c cs ih =>
    simp only [splitSp]
    split
    · rename_i hc
      subst hc
      cases hsp : splitSp cs with
      | nil => exact absurd hsp (splitSp_ne_nil cs)
      | cons w ws =>
        rw [hsp] at ih
        rw [show joinSp ([] :: w :: ws) = [] ++ ' ' :: joinSp (w :: ws) from rfl, ih]
        rfl
    · cases hsp : splitSp cs with
      | nil => exact absurd hsp (splitSp_ne_nil cs)
      | cons w ws =>
        rw [hsp] at ih
        cases ws with
        | nil =>
          simp only [joinSp] at ih ⊢
          rw [ih]
        | cons v vs =>
          rw [show joinSp ((c :: w) :: v :: vs) = (c :: w) ++ ' ' :: joinSp (v :: vs) from rfl]
          rw [show joinSp (w :: v :: vs) = w ++ ' ' :: joinSp (v :: vs) from rfl] at ih
          rw [← ih]
          rfl

lemma prefix_append_append (a b c : List Char) : a <+: (a ++ b) ++ c := by
  rw [List.append_assoc]
  exact List.prefix_append _ _

lemma streamStepsAux_chain (ws : List (List Char)) :
    ∀ (acc : List Char) (first : Bool),
      List.Chain' (· <+: ·) (streamStepsAux acc first ws) := by
  induction ws with
  | nil => intro acc first; simp [streamStepsAux]
  | cons w vs ih =>
    intro acc first
    simp only [streamStepsAux]
    rw [List.chain'_cons']
    refine ⟨?_, ih _ _⟩
    intro y hy
    cases vs with
    | nil => simp [streamStepsAux] at hy
    | cons v vs2 =>
      simp only [streamStepsAux, List.head?_cons, Option.mem_def, Option.some.injEq] at hy
      rw [← hy]
      exact prefix_append_append _ _ _

lemma streamStepsAux_getLastD (ws : List (List Char)) :
    ∀ (acc : List Char) (first : Bool) (w d : List Char),
      (streamStepsAux acc first (w :: ws)).getLastD d
        = acc ++ (if first then [] else [' ']) ++ w ++ spJoinTail ws := by
  induction ws with
  | nil => intro acc first w d; simp [streamStepsAux, spJoinTail]
  | cons v vs ih =>
    intro acc first w d
    rw [show streamStepsAux acc first (w :: v :: vs)
          = (acc ++ (if first then [] else [' ']) ++ w)
            :: streamStepsAux (acc ++ (if first then [] else [' ']) ++ w) false (v :: vs)
        from rfl]
    rw [List.getLastD_cons, ih]
    simp [spJoinTail, List.append_assoc]

lemma streamStepsAux_length (ws : List (List Char)) :
    ∀ (acc : List Char) (first : Bool),
      (streamStepsAux acc first ws).length = ws.length := by
  induction ws with
  | nil => intro acc first; rfl
  | cons w vs ih => intro acc first; simp [streamStepsAux, ih]

lemma joinSp_eq_spJoinTail (w : List Char) (ws : List (List Char)) :
    joinSp (w :: ws) = w ++ spJoinTail ws := by
  induction ws generalizing w with
  | nil => simp [joinSp, spJoinTail]
  | cons v vs ih => simp [joinSp, spJoinTail, ih v, List.append_assoc]

lemma streamContents_getLastD (text : List Char) :
    (streamStepsAux [] true (splitSp text)).getLastD [] = text := by
  cases hsp : splitSp text with
  | nil => exact absurd hsp (splitSp_ne_nil text)
  | cons w ws =>
    rw [streamStepsAux_getLastD]
    have hj := joinSp_splitSp text
    rw [hsp, joinSp_eq_spJoinTail] at hj
    simpa using hj

/-- C4: `streamResponse` delivers its segments in generation order — the
successive displayed contents form a prefix chain — the trace is finite
(one state per word plus the final flag update), and the final state
shows the complete answer text with the streaming flag cleared
(App.jsx:198-237). -/
theorem streamResponse_ordered_to_completion (text : List Char) :
    List.Chain' (fun p q : List Char × Bool => p.1 <+: q.1) (streamResponse text)
      ∧ (streamResponse text).getLast? = some (text, false)
      ∧ (streamResponse text).length = (splitSp text).length + 1 := by
  refine ⟨?_, ?_, ?_⟩
  · simp only [streamResponse]
    rw [List.chain'_append]
    refine ⟨?_, by simp, ?_⟩
    · rw [List.chain'_map]
      exact streamStepsAux_chain _ _ _
    · intro x hx y hy
      rw [List.getLast?_map] at hx
      simp only [Option.mem_def, Option.map_eq_some'] at hx
      obtain ⟨c, hc, hfc⟩ := hx
      simp only [List.head?_cons, Option.mem_def, Option.some.injEq] at hy
      rw [← hfc, ← hy]
      show c <+: (streamStepsAux [] true (splitSp text)).getLastD []
      rw [List.getLastD_eq_getLast?, hc]
      exact List.prefix_refl c
  · simp only [streamResponse]
    rw [List.getLast?_concat, streamContents_getLastD]
  · simp [streamResponse, streamStepsAux_length]

lemma runCallers_pending (n : Nat) :
    runCallers n (some .pending) = (List.replicate n .wait, some .pending) := by
  induction n with
  | zero => rfl
  | succ k ih => simp [runCallers, get_or_begin, ih, List.replicate_succ]

/-- C3: among `n ≥ 2` concurrent callers for the same fingerprint,
exactly one receives the generation lease (`Begin`) and all others
receive `Wait`; whatever the leaseholder's outcome — `complete` with an
answer or `fail` with an error — every caller receives that same outcome
once the lease settles; afterwards a completed answer is served from the
cache while a failed entry was removed, so the next caller receives a
fresh lease and retries cleanly. Modelled from spec §4.3/§5 (the
repository has no cache code). -/
theorem cache_single_flight (n : Nat) (outcome : Except String String) (h : 2 ≤ n) :
    (runCallers n none).1.count .begin = 1
      ∧ (runCallers n none).1 = .begin :: List.replicate (n - 1) .wait
      ∧ (∀ r ∈ (runCallers n none).1,
          receivedOutcome outcome (settledState outcome) r = some outcome)
      ∧ (get_or_begin (settleEntry outcome (runCallers n none).2)).1
          = (match outcome with
            | .ok a => .ready a
            | .error _ => .begin) := by
  obtain ⟨m, rfl⟩ : ∃ m, n = m + 1 := ⟨n - 1, by omega⟩
  have hrun : runCallers (m + 1) none
      = (.begin :: List.replicate m .wait, some .pending) := by
    simp [runCallers, get_or_begin, runCallers_pending]
  rw [hrun]
  refine ⟨?_, by simp, ?_, ?_⟩
  · rw [List.count_cons_self]
    have hz : (List.replicate m BeginResult.wait).count .begin = 0 :=
      List.count_eq_zero.mpr (fun hmem => by
        have := List.eq_of_mem_replicate hmem
        exact absurd this (by decide))
    rw [hz]
  · intro r hr
    rcases List.mem_cons.mp hr with hr | hr
    · subst hr; rfl
    · rw [List.eq_of_mem_replicate hr]
      cases outcome <;> rfl
  · cases outcome <;> rfl

/-- Witness for `cache_single_flight` at `n = 3`, exercising both the
completion outcome and the failure outcome. -/
theorem cache_single_flight_witness :
    2 ≤ 3
      ∧ ((runCallers 3 none).1.count .begin = 1
          ∧ (runCallers 3 none).1 = .begin :: List.replicate (3 - 1) .wait
          ∧ (∀ r ∈ (runCallers 3 none).1,
              receivedOutcome (.ok "ans") (settledState (.ok "ans")) r
                = some (.ok "ans"))
          ∧ (get_or_begin (settleEntry (.ok "ans") (runCallers 3 none).2)).1
              = (match (.ok "ans" : Except String String) with
                | .ok a => .ready a
                | .error _ => .begin))
      ∧ ((runCallers 3 none).1.count .begin = 1
          ∧ (runCallers 3 none).1 = .begin :: List.replicate (3 - 1) .wait
          ∧ (∀ r ∈ (runCallers 3 none).1,
              receivedOutcome (.error "generation failed")
                  (settledState (.error "generation failed")) r
                = some (.error "generation failed"))
          ∧ (get_or_begin
                (settleEntry (.error "generation failed") (runCallers 3 none).2)).1
              = (match (.error "generation failed" : Except String String) with
                | .ok a => .ready a
                | .error _ => .begin)) :=
  ⟨by decide, cache_single_flight 3 (.ok "ans") (by decide),
    cache_single_flight 3 (.error "generation failed") (by decide)⟩

lemma streamStep_stuck (c : Bool) (s : StreamState) (h : s.status ≠ .inProgress) :
    streamStep c s = s := by
  unfold streamStep
  rw [if_neg h]

lemma runStream_stuck (sched : List Bool) (s : StreamState)
    (h : s.status ≠ .inProgress) : runStream sched s = s := by
  induction sched with
  | nil => rfl
  | cons c cs ih =>
    show runStream cs (streamStep c s) = s
    rw [streamStep_stuck c s h]
    exact ih

lemma runStream_emit (k : Nat) :
    ∀ (pend emit : List String) (cw : Option String), k ≤ pend.length →
      runStream (List.replicate k false) ⟨pend, emit, .inProgress, cw⟩
        = ⟨pend.drop k, emit ++ pend.take k, .inProgress, cw⟩ := by
  induction k with
  | zero => intro pend emit cw h; simp [runStream]
  | succ j ih =>
    intro pend emit cw h
    cases pend with
    | nil => simp at h
    | cons seg rest =>
      rw [List.replicate_succ]
      rw [show runStream (false :: List.replicate j false) ⟨seg :: rest, emit, .inProgress, cw⟩
            = runStream (List.replicate j false)
                (streamStep false ⟨seg :: rest, emit, .inProgress, cw⟩) from rfl]
      rw [show streamStep false ⟨seg :: rest, emit, .inProgress, cw⟩
            = ⟨rest, emit ++ [seg], .inProgress, cw⟩ from rfl]
      rw [ih rest (emit ++ [seg]) cw (by simpa using h)]
      simp [List.append_assoc]

/-- C5: cancelling a stream after `k` delivered segments emits no segment
`k+1` or later — the emitted sequence is exactly the first `k` segments —
the stream ends `cancelled`, and no cache write is performed for the
abandoned lease. Modelled from spec §4.5/§5 (the repository's
`streamResponse` has no cancellation path). -/
theorem stream_cancellation_clean (segments : List String) (k : Nat)
    (rest : List Bool) (h : k ≤ segments.length) :
    (runStream (List.replicate k false ++ true :: rest) (initStream segments)).emitted
        = segments.take k
      ∧ (runStream (List.replicate k false ++ true :: rest)
          (initStream segments)).cacheWrite = none
      ∧ (runStream (List.replicate k false ++ true :: rest)
          (initStream segments)).status = .cancelled := by
  have h1 : runStream (List.replicate k false ++ true :: rest) (initStream segments)
      = runStream rest
          (streamStep true (runStream (List.replicate k false) (initStream segments))) := by
    simp [runStream, List.foldl_append]
  rw [h1, show initStream segments = ⟨segments, [], .inProgress, none⟩ from rfl,
    runStream_emit k segments [] none h]
  rw [show streamStep true ⟨segments.drop k, [] ++ segments.take k, .inProgress, none⟩
        = ⟨segments.drop k, [] ++ segments.take k, .cancelled, none⟩ from rfl]
  rw [runStream_stuck rest _ (by simp)]
  simp

/-- Witness for `stream_cancellation_clean`: four segments, cancelled
after two. -/
theorem stream_cancellation_clean_witness :
    2 ≤ sampleSegments.length
      ∧ ((runStream (List.replicate 2 false ++ true :: [false, false])
            (initStream sampleSegments)).emitted = sampleSegments.take 2
        ∧ (runStream (List.replicate 2 false ++ true :: [false, false])
            (initStream sampleSegments)).cacheWrite = none
        ∧ (runStream (List.replicate 2 false ++ true :: [false, false])
            (initStream sampleSegments)).status = .cancelled) :=
  ⟨by decide, stream_cancellation_clean sampleSegments 2 [false, false] (by decide)⟩

/-- C6 counterexample: the BGC chat line does not reproduce the bundle
value verbatim — `toFixed(2)` rounds 3.456 to 3.46
(AdvancedQueries.jsx:159). -/
theorem verbatim_numeric_counterexample :
    (bgcDisplayedRange ⟨3456/1000, 8, 0, 0, 5, "mg"⟩).1 = 346/100
      ∧ ((346 : ℚ)/100 ≠ (3456 : ℚ)/1000) := by
  constructor
  · show jsToFixed2 ((3456 : ℚ)/1000) = 346/100
    unfold jsToFixed2
    have hf : (⌊(3456 : ℚ)/1000 * 100 + 1/2⌋ : ℤ) = 346 := by
      rw [Int.floor_eq_iff]
      norm_num
    rw [hf]
    norm_num
  · norm_num

/-- C6 amended: displayed numeric values are the `toFixed(2)` rounding of
the bundle value — within 1/200 of it, and exact whenever the bundle
value already has at most two decimal places — while missing/NaN values
are replaced by the default 0.00 by `safeToFixed`. -/
theorem bgc_display_rounds_to_cents (a : BgcAnalysis) (m : ℤ)
    (hm : a.mean_min = (m : ℚ) / 100) :
    |(bgcDisplayedRange a).1 - a.overall_min| ≤ 1/200
      ∧ jsToFixed2 a.mean_min = a.mean_min
      ∧ safeToFixed none = 0 := by
  refine ⟨?_, ?_, rfl⟩
  · have h1 : ((⌊a.overall_min * 100 + 1/2⌋ : ℤ) : ℚ) ≤ a.overall_min * 100 + 1/2 :=
      Int.floor_le _
    have h2 : a.overall_min * 100 + 1/2 < (⌊a.overall_min * 100 + 1/2⌋ : ℤ) + 1 :=
      Int.lt_floor_add_one _
    show |((⌊a.overall_min * 100 + 1/2⌋ : ℤ) : ℚ)/100 - a.overall_min| ≤ 1/200
    rw [abs_le]
    constructor <;> [linarith; linarith]
  · rw [hm]
    unfold jsToFixed2
    have hmul : (m : ℚ) / 100 * 100 = (m : ℚ) := by field_simp
    rw [hmul]
    have hhalf : (⌊(1/2 : ℚ)⌋ : ℤ) = 0 := by
      rw [Int.floor_eq_iff]
      norm_num
    have h0 : (⌊(m : ℚ) + 1/2⌋ : ℤ) = m := by
      rw [add_comm, Int.floor_add_int, hhalf]
      omega
    rw [h0]

/-- Witness for `bgc_display_rounds_to_cents`. -/
theorem bgc_display_rounds_to_cents_witness :
    bgcSample.mean_min = ((123 : ℤ) : ℚ) / 100
      ∧ (|(bgcDisplayedRange bgcSample).1 - bgcSample.overall_min| ≤ 1/200
          ∧ jsToFixed2 bgcSample.mean_min = bgcSample.mean_min
          ∧ safeToFixed none = 0) :=
  ⟨by norm_num [bgcSample], bgc_display_rounds_to_cents bgcSample 123 (by norm_num [bgcSample])⟩

/-- C8 counterexample: `executeSpatialQuery` issues the request for
latitude 200 and longitude 500 — far out of range — instead of rejecting
it, and it targets a dedicated endpoint distinct from the free-text
query pipeline. -/
theorem spatial_out_of_range_counterexample :
    executeSpatialQuery spatialSample
        = some (nearestFloatsEndpoint, 200, 500, 100)
      ∧ ¬ ((200 : ℚ) ≤ 90) ∧ ¬ ((500 : ℚ) ≤ 180)
      ∧ nearestFloatsEndpoint ≠ queryDataEndpoint :=
  ⟨rfl, by norm_num, by norm_num, by decide⟩

/-- C8 amended: structured spatial queries are issued against their own
endpoint (`/api/floats/nearest`), separate from the free-text
`/api/query-data`/`/api/web-search` pipeline, and coordinates are
forwarded unvalidated: even out-of-range coordinates produce a request
rather than a rejection. -/
theorem spatial_query_issued_unvalidated (q : SpatialQueryState)
    (_h : q.latitude < -90 ∨ 90 < q.latitude
        ∨ q.longitude < -180 ∨ 180 < q.longitude) :
    executeSpatialQuery q
        = some (nearestFloatsEndpoint, q.latitude, q.longitude, q.radius)
      ∧ executeSpatialQuery q ≠ none
      ∧ nearestFloatsEndpoint ≠ queryDataEndpoint
      ∧ nearestFloatsEndpoint ≠ webSearchEndpoint :=
  ⟨rfl, by simp [executeSpatialQuery], by decide, by decide⟩

/-- Witness for `spatial_query_issued_unvalidated`. -/
theorem spatial_query_issued_unvalidated_witness :
    (spatialSample.latitude < -90 ∨ 90 < spatialSample.latitude
        ∨ spatialSample.longitude < -180 ∨ 180 < spatialSample.longitude)
      ∧ (executeSpatialQuery spatialSample
            = some (nearestFloatsEndpoint, spatialSample.latitude,
                spatialSample.longitude, spatialSample.radius)
          ∧ executeSpatialQuery spatialSample ≠ none
          ∧ nearestFloatsEndpoint ≠ queryDataEndpoint
          ∧ nearestFloatsEndpoint ≠ webSearchEndpoint) :=
  ⟨Or.inr (Or.inl (by norm_num [spatialSample])),
    spatial_query_issued_unvalidated spatialSample
      (Or.inr (Or.inl (by norm_num [spatialSample])))⟩

end FloatChat
